import Mathlib

/-!  Shallow embedding of the listing upsert reconciler
`insert_motos_from_json` from `src/fun_db.py`, together with the SQLite
table state it manipulates.  Python-level values are modelled by `PyVal`
(floats as rationals), the pandas DataFrame by a column list plus a list
of association-list records, and the SQLite file by an optional table
whose rows are association lists of SQL values.  -/

set_option autoImplicit false

namespace Moto

/-- Python-level values that can appear in a scraped record cell: `None`,
the float NaN sentinel pandas uses for missing cells, strings, ints and
floats (modelled as rationals; the reconciler never does float
arithmetic, it only passes floats through or truncates them). -/
inductive PyVal where
  | none  : PyVal
  | nan   : PyVal
  | str   : String → PyVal
  | int   : Int → PyVal
  | float : ℚ → PyVal
  deriving DecidableEq, Repr

/-- Model of pandas `pd.isna` on our value universe: NaN and `None` are
na, everything else is not. -/
def pdIsNa : PyVal → Bool
  | .none => true
  | .nan  => true
  | _     => false

/-- ASCII whitespace stripped by Python str.strip and by `int`/`float`
literal parsing. -/
def isPySpace (c : Char) : Bool :=
  c = ' ' || c = '\t' || c = '\n' || c = '\r' || c = '\x0b' || c = '\x0c'

/-- Strip leading and trailing whitespace from a character list. -/
def trimChars (l : List Char) : List Char :=
  ((l.dropWhile isPySpace).reverse.dropWhile isPySpace).reverse

/-- Model of Python str.strip (kernel-reducible, unlike String.trim). -/
def pyTrim (s : String) : String :=
  String.mk (trimChars s.toList)

/-- Numeric value of a list of decimal digit characters (empty list
gives 0; callers check non-emptiness separately). -/
def natOfDigits (l : List Char) : Nat :=
  l.foldl (fun a c => a * 10 + (c.toNat - 48)) 0

/-- Parse a non-empty all-digit character list, as used by Python
`int(...)` after sign splitting. -/
def decDigits? (l : List Char) : Option Nat :=
  if l.isEmpty then Option.none
  else if l.all (fun c => c.isDigit) then some (natOfDigits l)
  else Option.none

/-- Model of Python `int(s)` on a string: strip whitespace, optional
sign, then decimal digits; anything else raises in Python, which the
caller turns into `None` (so `Option.none` here). -/
def parsePyInt (s : String) : Option Int :=
  match trimChars s.toList with
  | '+' :: rest => (decDigits? rest).map (fun n => (n : Int))
  | '-' :: rest => (decDigits? rest).map (fun n => -(n : Int))
  | l => (decDigits? l).map (fun n => (n : Int))

/-- Split a character list at the first occurrence of `c`, returning the
parts before and after it, or nothing if `c` does not occur. -/
def splitAtChar (c : Char) : List Char → Option (List Char × List Char)
  | [] => Option.none
  | x :: xs =>
    if x = c then some ([], xs)
    else (splitAtChar c xs).map (fun p => (x :: p.1, p.2))

/-- Parse the mantissa part of a Python float literal: digits with an
optional decimal point, at least one digit overall. -/
def mantissa? (l : List Char) : Option ℚ :=
  match splitAtChar '.' l with
  | Option.none => (decDigits? l).map (fun n => (n : ℚ))
  | some (a, b) =>
    if a.isEmpty && b.isEmpty then Option.none
    else if a.all (fun c => c.isDigit) && b.all (fun c => c.isDigit) then
      some ((natOfDigits a : ℚ) + (natOfDigits b : ℚ) / ((10 : ℚ) ^ b.length))
    else Option.none

/-- Split off an exponent part introduced by e or E, if present. -/
def expSplit (l : List Char) : List Char × Option (List Char) :=
  match splitAtChar 'e' l with
  | some (a, b) => (a, some b)
  | Option.none =>
    match splitAtChar 'E' l with
    | some (a, b) => (a, some b)
    | Option.none => (l, Option.none)

/-- Signed decimal integer, as allowed in a float exponent. -/
def signedDigits? (l : List Char) : Option Int :=
  match l with
  | '+' :: rest => (decDigits? rest).map (fun n => (n : Int))
  | '-' :: rest => (decDigits? rest).map (fun n => -(n : Int))
  | _ => (decDigits? l).map (fun n => (n : Int))

/-- Ten to an integer power, as a rational. -/
def qpow10 (k : Int) : ℚ :=
  if 0 ≤ k then ((10 : ℚ) ^ k.toNat) else 1 / ((10 : ℚ) ^ (-k).toNat)

/-- Model of Python `float(s)` on a string: strip, optional sign,
decimal mantissa, optional exponent.  (The exotic `inf`/`nan`/underscore
literals accepted by CPython are not modelled; no claim mentions
them.) -/
def parsePyFloat (s : String) : Option ℚ :=
  let t := trimChars s.toList
  let sb : Int × List Char :=
    match t with
    | '+' :: r => (1, r)
    | '-' :: r => (-1, r)
    | r => (1, r)
  let (m, e) := expSplit sb.2
  match mantissa? m with
  | Option.none => Option.none
  | some q =>
    match e with
    | Option.none => some (sb.1 * q)
    | some el =>
      match signedDigits? el with
      | Option.none => Option.none
      | some k => some (sb.1 * q * qpow10 k)

/-- Truncation toward zero, Python `int(float)`. -/
def ratTrunc (q : ℚ) : Int :=
  if 0 ≤ q.num then q.num / (q.den : Int) else -((-q.num) / (q.den : Int))

/-- Textual rendering used for Python `str(x)`.  Floats are rendered
injectively as numerator/denominator; no claim observes the exact
characters of a float rendering, only whether the result is empty after
trimming (it never is). -/
def pyStrRepr : PyVal → String
  | .none => "None"
  | .nan => "nan"
  | .str s => s
  | .int n => toString n
  | .float q => toString q.num ++ (if q.den = 1 then "" else "/" ++ toString q.den)

/-- Local coercion `_to_int` from `insert_motos_from_json`
(src/fun_db.py lines 80-84): `int(x)` when `x` is not in
`(None, "", "None")` and not na, else `None`; any exception also gives
`None`. -/
def to_int (x : PyVal) : Option Int :=
  if x = PyVal.none || x = PyVal.str "" || x = PyVal.str "None" || pdIsNa x then
    Option.none
  else
    match x with
    | .int n => some n
    | .float q => some (ratTrunc q)
    | .str s => parsePyInt s
    | _ => Option.none

/-- Local coercion `_to_float` from `insert_motos_from_json`
(src/fun_db.py lines 85-89). -/
def to_float (x : PyVal) : Option ℚ :=
  if x = PyVal.none || x = PyVal.str "" || x = PyVal.str "None" || pdIsNa x then
    Option.none
  else
    match x with
    | .int n => some ((n : ℚ))
    | .float q => some q
    | .str s => parsePyFloat s
    | _ => Option.none

/-- Local coercion `_to_str` from `insert_motos_from_json`
(src/fun_db.py lines 90-94): `None` for `None`/NaN, else
`str(x).strip()`, with the empty string mapped to `None`. -/
def to_str (x : PyVal) : Option String :=
  match x with
  | .none => Option.none
  | .nan => Option.none
  | _ =>
    let s := pyTrim (pyStrRepr x)
    if s = "" then Option.none else some s

/-- Boolean membership of a column name in a column list (the in
operator on the existing_cols set of the source). -/
def containsStr (l : List String) (c : String) : Bool :=
  l.any (fun x => x = c)

/-- One raw input record: an association list from field names to
Python values, as produced by a JSON object. -/
abbrev Record := List (String × PyVal)

/-- Model of the pandas DataFrame built from the record list: the set
of column names together with the rows.  A cell missing from a record
whose column exists elsewhere in the batch reads as NaN, exactly as
`pd.DataFrame(items_json)` fills it. -/
structure Frame where
  cols : List String
  rows : List Record
  deriving DecidableEq, Repr

/-- Column names contributed by the records (order of first appearance
is irrelevant to the routine: only membership is ever consulted, and
records built from JSON objects have unique keys, so the
duplicate-column drop at src/fun_db.py lines 70-71 is the identity). -/
def colNames : List Record → List String
  | [] => []
  | r :: rs => r.map Prod.fst ++ colNames rs

/-- Cell access with the pandas missing-cell default NaN. -/
def getCell (r : Record) (c : String) : PyVal :=
  match r.lookup c with
  | some v => v
  | Option.none => PyVal.nan

/-- Assign a column value in one record (replace if the key exists,
append otherwise). -/
def setCell (r : Record) (c : String) (v : PyVal) : Record :=
  if r.any (fun p => p.1 = c) then
    r.map (fun p => if p.1 = c then (c, v) else p)
  else r ++ [(c, v)]

/-- Stamp the per-batch labels onto every row, as
`df["marca"] = marca; df["modelo"] = modelo` does (src/fun_db.py lines
66-67); the columns are appended when absent. -/
def stamp (f : Frame) (marca modelo : String) : Frame :=
  let c1 := if containsStr f.cols "marca" then f.cols else f.cols ++ ["marca"]
  let c2 := if containsStr c1 "modelo" then c1 else c1 ++ ["modelo"]
  { cols := c2,
    rows := f.rows.map (fun r =>
      setCell (setCell r "marca" (PyVal.str marca)) "modelo" (PyVal.str modelo)) }

/-- The `expected_cols` list of src/fun_db.py line 69. -/
def expected_cols : List String :=
  ["id", "url", "title", "km", "price", "year", "imgUrl", "provinceId", "hp",
   "marca", "modelo"]

/-- The `df.replace` step mapping NaN cells to `None`
(src/fun_db.py line 77). -/
def replaceNan (v : PyVal) : PyVal :=
  if v = PyVal.nan then PyVal.none else v

/-- A record after per-field normalization (the column maps at
src/fun_db.py lines 96-106). -/
structure NRow where
  id : Option String
  url : Option String
  title : Option String
  km : Option Int
  price : Option Int
  year : Option Int
  imgUrl : Option String
  provinceId : Option String
  hp : Option ℚ
  marca : Option String
  modelo : Option String
  deriving DecidableEq, Repr

/-- Normalize one record: select the expected columns, replace NaN by
`None`, then apply the per-column coercions. -/
def normRecord (r : Record) : NRow :=
  let g := fun c => replaceNan (getCell r c)
  { id := to_str (g "id"),
    url := to_str (g "url"),
    title := to_str (g "title"),
    km := to_int (g "km"),
    price := to_int (g "price"),
    year := to_int (g "year"),
    imgUrl := to_str (g "imgUrl"),
    provinceId := to_str (g "provinceId"),
    hp := to_float (g "hp"),
    marca := to_str (g "marca"),
    modelo := to_str (g "modelo") }

/-- Python truthiness of a normalized string field: `not d["id"]` is
true exactly when the field is `None` or the empty string. -/
def truthyStr : Option String → Bool
  | Option.none => false
  | some s => s ≠ ""

/-- The required-triplet survival check of src/fun_db.py line 111. -/
def survive (n : NRow) : Bool :=
  truthyStr n.id && truthyStr n.url && truthyStr n.title

/-- The collection loop at src/fun_db.py lines 108-117: surviving rows
in order, plus the skipped count. -/
def collectRows : List NRow → List NRow × Nat
  | [] => ([], 0)
  | n :: rest =>
    let p := collectRows rest
    if survive n then (n :: p.1, p.2) else (p.1, p.2 + 1)

/-- The stamped DataFrame for a call. -/
def stampedFrame (items : List Record) (marca modelo : String) : Frame :=
  stamp ⟨colNames items, items⟩ marca modelo

/-- The `missing` list of src/fun_db.py line 73. -/
def missing_cols (items : List Record) (marca modelo : String) : List String :=
  expected_cols.filter (fun c => !(containsStr (stampedFrame items marca modelo).cols c))

/-- All rows after normalization (before the survival check). -/
def normalizedRows (items : List Record) (marca modelo : String) : List NRow :=
  (stampedFrame items marca modelo).rows.map normRecord

/-- The surviving rows of a call. -/
def survivorsOf (items : List Record) (marca modelo : String) : List NRow :=
  (collectRows (normalizedRows items marca modelo)).1

/-- The skipped count of a call. -/
def skippedOf (items : List Record) (marca modelo : String) : Nat :=
  (collectRows (normalizedRows items marca modelo)).2

/-!  SQLite-level state.  -/

/-- SQLite storage-class values. -/
inductive SQLVal where
  | null : SQLVal
  | int  : Int → SQLVal
  | real : ℚ → SQLVal
  | text : String → SQLVal
  deriving DecidableEq, Repr

/-- One stored row: an association list from column names to SQL
values; a column absent from the list reads as NULL (this is how rows
that predate an ALTER TABLE ADD COLUMN behave). -/
abbrev SRow := List (String × SQLVal)

/-- The data_moto table: its column list and its rows. -/
structure Table where
  cols : List String
  rows : List SRow
  deriving DecidableEq, Repr

/-- The SQLite file as seen by the routine: either the table does not
exist yet (fresh or absent file) or it does. -/
abbrev DBState := Option Table

/-- Cell read with NULL default. -/
def getSCell (row : SRow) (c : String) : SQLVal :=
  match row.lookup c with
  | some v => v
  | Option.none => SQLVal.null

/-- Cell write: replace the cell `getSCell` reads (the first occurrence
of the key; stored rows have unique keys), append if absent. -/
def setSCell (row : SRow) (c : String) (v : SQLVal) : SRow :=
  match row with
  | [] => [(c, v)]
  | p :: ps => if p.1 = c then (c, v) :: ps else p :: setSCell ps c v

/-- The column list of the CREATE TABLE DDL (src/fun_db.py lines
12-27); note it has no created_at/updated_at. -/
def ddl_cols : List String :=
  ["id", "url", "title", "km", "price", "year", "imgUrl", "provinceId", "hp",
   "marca", "modelo"]

/-- `CREATE TABLE IF NOT EXISTS` (src/fun_db.py line 132): a no-op on
an existing table, a fresh empty table otherwise. -/
def createIfNotExists (st : DBState) : Table :=
  match st with
  | some t => t
  | Option.none => ⟨ddl_cols, []⟩

/-- Column list after the marca/modelo migration steps
(src/fun_db.py lines 139-145). -/
def withMarcaModelo (cols : List String) : List String :=
  let c1 := if containsStr cols "marca" then cols else cols ++ ["marca"]
  if containsStr c1 "modelo" then c1 else c1 ++ ["modelo"]

/-- The `added_cols` list of the timestamp migration loop
(src/fun_db.py lines 148-152). -/
def addedTimestampCols (cols : List String) : List String :=
  (["created_at", "updated_at"]).filter (fun c => !(containsStr cols c))

/-- One step of the backfill `UPDATE ... SET c = COALESCE(c, now)`. -/
def coalesceCell (row : SRow) (c : String) (now : String) : SRow :=
  match getSCell row c with
  | SQLVal.null => setSCell row c (SQLVal.text now)
  | _ => row

/-- The created_at backfill step, applied when that column was added. -/
def backfillCreated (cols : List String) (now : String) (rows : List SRow) :
    List SRow :=
  if containsStr (addedTimestampCols cols) "created_at" then
    rows.map (fun r => coalesceCell r "created_at" now)
  else rows

/-- The backfill of newly added timestamp columns (src/fun_db.py lines
153-159): run only when some timestamp column was added, and only for
the columns actually added. -/
def backfillRows (cols : List String) (now : String) (rows : List SRow) : List SRow :=
  if (addedTimestampCols cols).isEmpty then rows
  else
    if containsStr (addedTimestampCols cols) "updated_at" then
      (backfillCreated cols now rows).map (fun r => coalesceCell r "updated_at" now)
    else backfillCreated cols now rows

/-- The whole schema-ensure phase on an existing table (src/fun_db.py
lines 134-162): add marca/modelo and the timestamp columns when
missing, then backfill the newly added timestamp columns.  Every step
is guarded by an existence check, so the phase never fails; it is a
total function. -/
def ensureSchema (t : Table) (now : String) : Table :=
  let c2 := withMarcaModelo t.cols
  ⟨c2 ++ addedTimestampCols c2, backfillRows c2 now t.rows⟩

/-- The table obtained from a call's initial state after CREATE TABLE
IF NOT EXISTS and the schema-ensure phase. -/
def ensuredTable (st : DBState) (now : String) : Table :=
  ensureSchema (createIfNotExists st) now

/-- Kinds of sqlite3 exceptions the routine can meet.  Only
OperationalError is ever caught (src/fun_db.py lines 170-173). -/
inductive SqlErr where
  | operational : SqlErr
  | integrity : SqlErr
  deriving DecidableEq, Repr

/-- Failure injection for the index-creation statements: for each index
name, whether its CREATE INDEX fails and with which exception kind.
Index contents are not otherwise modelled (they never change query
results). -/
structure IndexEnv where
  fails : String → Option SqlErr

/-- The environment in which every index creation succeeds. -/
def envOk : IndexEnv := ⟨fun _ => Option.none⟩

/-- The index-creation block (src/fun_db.py lines 164-173): the four
plain CREATE INDEX statements are unguarded, the expression index over
LOWER(title) is wrapped in try/except sqlite3.OperationalError. -/
def createIndexes (env : IndexEnv) : Except SqlErr Unit :=
  match env.fails "idx_data_moto_price" with
  | some e => .error e
  | Option.none =>
  match env.fails "idx_data_moto_year" with
  | some e => .error e
  | Option.none =>
  match env.fails "idx_data_moto_km" with
  | some e => .error e
  | Option.none =>
  match env.fails "idx_data_moto_prov" with
  | some e => .error e
  | Option.none =>
  match env.fails "idx_data_moto_title_ci" with
  | some SqlErr.operational => .ok ()
  | some e => .error e
  | Option.none => .ok ()

/-- SQLite text-to-integer conversion used by INTEGER affinity:
optional sign and decimal digits around optional whitespace. -/
def parseSqlInt (s : String) : Option Int := parsePyInt s

/-- Strict INTEGER PRIMARY KEY affinity applied to an inserted id value
(SQLite converts a numeric-looking text and rejects anything that does
not become an integer with a datatype-mismatch error).  A NULL id would
auto-assign a rowid, but the routine only ever inserts surviving rows,
whose id is a non-empty string, so that branch is unreachable and is
mapped to the error case. -/
def intAffinity : SQLVal → Option SQLVal
  | SQLVal.int n => some (SQLVal.int n)
  | SQLVal.text s => (parseSqlInt s).map SQLVal.int
  | SQLVal.real q => if q.den = 1 then some (SQLVal.int q.num) else Option.none
  | SQLVal.null => Option.none

/-- Numeric affinity applied to a comparison operand of an
INTEGER-affinity column: numeric-looking text becomes an integer,
everything else is unchanged. -/
def numAffinity (v : SQLVal) : SQLVal :=
  match v with
  | SQLVal.text s =>
    match parseSqlInt s with
    | some n => SQLVal.int n
    | Option.none => SQLVal.text s
  | v => v

/-- SQL equality after affinity conversion of the right operand (NULL
compares false to everything, integers and reals compare numerically,
values of different storage classes are unequal). -/
def sqlCmpEq (stored p : SQLVal) : Bool :=
  match stored, numAffinity p with
  | SQLVal.null, _ => false
  | _, SQLVal.null => false
  | SQLVal.int a, SQLVal.int b => a = b
  | SQLVal.int a, SQLVal.real q => (a : ℚ) = q
  | SQLVal.real q, SQLVal.int a => q = (a : ℚ)
  | SQLVal.real a, SQLVal.real b => a = b
  | SQLVal.text a, SQLVal.text b => a = b
  | _, _ => false

/-- Binding of a normalized optional string as a SQL parameter. -/
def sqlOfStr : Option String → SQLVal
  | Option.none => SQLVal.null
  | some s => SQLVal.text s

/-- Binding of a normalized optional integer as a SQL parameter. -/
def sqlOfInt : Option Int → SQLVal
  | Option.none => SQLVal.null
  | some n => SQLVal.int n

/-- Binding of a normalized optional float as a SQL parameter. -/
def sqlOfRat : Option ℚ → SQLVal
  | Option.none => SQLVal.null
  | some q => SQLVal.real q

/-- One lookup `SELECT id FROM data_moto WHERE id IN (chunk)`
(src/fun_db.py line 204): the stored ids whose value matches some
parameter of the chunk under INTEGER-affinity comparison. -/
def selectIdsIn (t : Table) (chunk : List (Option String)) : List SQLVal :=
  (t.rows.map (fun row => getSCell row "id")).filter
    (fun v => chunk.any (fun p => sqlCmpEq v (sqlOfStr p)))

/-- The id list split into the 900-element chunks of the lookup loop
(src/fun_db.py lines 201-202). -/
def chunks900Fuel {α : Type} : Nat → List α → List (List α)
  | _, [] => []
  | 0, _ :: _ => []
  | fuel + 1, a :: as => (a :: as).take 900 :: chunks900Fuel fuel ((a :: as).drop 900)

/-- The 900-chunking itself; the fuel `l.length` is enough because each
round consumes at least one element, so the zero-fuel branch above is
never reached. -/
def chunks900 {α : Type} (l : List α) : List (List α) :=
  chunks900Fuel l.length l

/-- Concatenation of a list of lists (the union of the per-chunk query
results; Python accumulates them into a set, whose only observable is
membership). -/
def concatAll {α : Type} : List (List α) → List α
  | [] => []
  | l :: ls => l ++ concatAll ls

/-- The chunked existing-key lookup (src/fun_db.py lines 199-205). -/
def existingKeysChunked (t : Table) (ids : List (Option String)) : List SQLVal :=
  concatAll ((chunks900 ids).map (fun c => selectIdsIn t c))

/-- Conversion of a fetched SQLite value back to Python. -/
def pyOfSql : SQLVal → PyVal
  | SQLVal.null => PyVal.none
  | SQLVal.int n => PyVal.int n
  | SQLVal.real q => PyVal.float q
  | SQLVal.text s => PyVal.str s

/-- Python `==` between the values that can sit in the existing-id set
and a record id: numbers compare numerically across int/float, a string
never equals a number, NaN equals nothing. -/
def pyEqB : PyVal → PyVal → Bool
  | PyVal.none, PyVal.none => true
  | PyVal.str a, PyVal.str b => a = b
  | PyVal.int a, PyVal.int b => a = b
  | PyVal.float a, PyVal.float b => a = b
  | PyVal.int a, PyVal.float b => (a : ℚ) = b
  | PyVal.float a, PyVal.int b => a = (b : ℚ)
  | _, _ => false

/-- The Python value of a normalized id field as it sits in the rows
tuples (either `None` or a non-empty string). -/
def pyOfOptStr : Option String → PyVal
  | Option.none => PyVal.none
  | some s => PyVal.str s

/-- The row tuple appended for a plain INSERT (column list base_cols of
src/fun_db.py line 122; freshly inserted rows carry no
created_at/updated_at, so those cells read NULL).  Storage-class
coercion on non-key columns is the identity here: no claim observes the
storage class of a non-key cell. -/
def baseRow (idv : SQLVal) (r : NRow) : SRow :=
  [("id", idv), ("url", sqlOfStr r.url), ("title", sqlOfStr r.title),
   ("km", sqlOfInt r.km), ("price", sqlOfInt r.price), ("year", sqlOfInt r.year),
   ("imgUrl", sqlOfStr r.imgUrl), ("provinceId", sqlOfStr r.provinceId),
   ("hp", sqlOfRat r.hp), ("marca", sqlOfStr r.marca), ("modelo", sqlOfStr r.modelo)]

/-- The set_parts assignment list of the dynamic upsert (src/fun_db.py
lines 176-189): every non-key column from the excluded row, plus
updated_at = now when that column exists; neither id nor created_at
appears in it. -/
def nonKeyAssignments (hasUpd : Bool) (now : String) (r : NRow) :
    List (String × SQLVal) :=
  [("url", sqlOfStr r.url), ("title", sqlOfStr r.title), ("km", sqlOfInt r.km),
   ("price", sqlOfInt r.price), ("year", sqlOfInt r.year),
   ("imgUrl", sqlOfStr r.imgUrl), ("provinceId", sqlOfStr r.provinceId),
   ("hp", sqlOfRat r.hp), ("marca", sqlOfStr r.marca),
   ("modelo", sqlOfStr r.modelo)]
  ++ (if hasUpd then [("updated_at", SQLVal.text now)] else [])

/-- Apply a list of column assignments in order. -/
def setAll (row : SRow) (assigns : List (String × SQLVal)) : SRow :=
  assigns.foldl (fun acc p => setSCell acc p.1 p.2) row

/-- The DO UPDATE branch of the upsert: overwrite every non-key column
from the excluded row and refresh updated_at when that column exists
(src/fun_db.py lines 176-189); created_at and id are untouched. -/
def updateFromExcluded (hasUpd : Bool) (now : String) (r : NRow) (row : SRow) : SRow :=
  setAll row (nonKeyAssignments hasUpd now r)

/-- Does some row of the table carry this url (used for the UNIQUE(url)
constraint, whose conflicts are not covered by ON CONFLICT(id) and so
raise IntegrityError)? -/
def urlTaken (rows : List SRow) (url : SQLVal) : Bool :=
  rows.any (fun row => sqlCmpEq (getSCell row "url") url)

/-- Does a row other than the one keyed idv carry this url? -/
def urlClash (rows : List SRow) (idv url : SQLVal) : Bool :=
  rows.any (fun row =>
    !(sqlCmpEq (getSCell row "id") idv) && sqlCmpEq (getSCell row "url") url)

/-- One row of the upsert statement (src/fun_db.py lines 191-196):
apply INTEGER PRIMARY KEY affinity to the id, enforce NOT NULL on url
and title and UNIQUE(url), then either update the conflicting row in
place or append a new one. -/
def upsertRow (hasUpd : Bool) (now : String) (t : Table) (r : NRow) :
    Except SqlErr Table :=
  match intAffinity (sqlOfStr r.id) with
  | Option.none => .error SqlErr.integrity
  | some idv =>
    if sqlOfStr r.url = SQLVal.null || sqlOfStr r.title = SQLVal.null then
      .error SqlErr.integrity
    else if t.rows.any (fun row => sqlCmpEq (getSCell row "id") idv) then
      if urlClash t.rows idv (sqlOfStr r.url) then .error SqlErr.integrity
      else
        .ok ⟨t.cols, t.rows.map (fun row =>
          if sqlCmpEq (getSCell row "id") idv then
            updateFromExcluded hasUpd now r row
          else row)⟩
    else
      if urlTaken t.rows (sqlOfStr r.url) then .error SqlErr.integrity
      else .ok ⟨t.cols, t.rows ++ [baseRow idv r]⟩

/-- The bulk write `cur.executemany(UPSERT_SQL, rows)` followed by the
commit (src/fun_db.py lines 207-208): all rows applied in order, or the
first failure aborts the whole phase with the table unchanged (the
uncommitted transaction is rolled back when the connection is closed in
the finally block). -/
def writePhase (hasUpd : Bool) (now : String) (t : Table) :
    List NRow → Except SqlErr Table
  | [] => .ok t
  | r :: rs =>
    match upsertRow hasUpd now t r with
    | .error e => .error e
    | .ok t1 => writePhase hasUpd now t1 rs

/-- The summary dictionary returned by the routine. -/
structure Summary where
  inserted : Nat
  updated : Nat
  skipped : Nat
  total : Nat
  deriving DecidableEq, Repr

/-- Exceptions that escape `insert_motos_from_json`. -/
inductive PyErr where
  | valueError : List String → PyErr
  | sqlErr : SqlErr → PyErr
  deriving DecidableEq, Repr

/-- The pre-write existing-key set of a call, as Python sees it after
fetching: the chunked lookup results converted back to Python
values. -/
def preWriteExistingKeys (items : List Record) (marca modelo now : String)
    (st : DBState) : List PyVal :=
  (existingKeysChunked (ensuredTable st now)
    ((survivorsOf items marca modelo).map (fun r => r.id))).map pyOfSql

/-- The inserted metric of src/fun_db.py line 210: surviving rows whose
Python id value is not a member (under Python equality) of the fetched
existing-key set. -/
def insertedCount (rows : List NRow) (existingPy : List PyVal) : Nat :=
  rows.countP (fun r => !(existingPy.any (fun e => pyEqB (pyOfOptStr r.id) e)))

/-- The storage part of the call, entered only when some row survives
(src/fun_db.py lines 124-214).  On an index-creation or write failure
the open transaction is rolled back by the connection close, leaving
the autocommitted schema changes (new columns) but none of the DML
(backfill or upserts); that rolled-back state is exactly the migrated
column list over the original rows.  The existing-key lookup is a pure
read of the pre-write table, so it is written where its result is
used. -/
def runWithStorage (rows : List NRow) (skipped : Nat) (env : IndexEnv)
    (now : String) (st : DBState) : Except PyErr Summary × DBState :=
  match createIndexes env with
  | .error e => (.error (.sqlErr e),
      some ⟨(ensuredTable st now).cols, (createIfNotExists st).rows⟩)
  | .ok _ =>
    match writePhase (containsStr (ensuredTable st now).cols "updated_at") now
        (ensuredTable st now) rows with
    | .error e => (.error (.sqlErr e),
        some ⟨(ensuredTable st now).cols, (createIfNotExists st).rows⟩)
    | .ok t2 =>
      (.ok ⟨insertedCount rows ((existingKeysChunked (ensuredTable st now)
            (rows.map (fun r => r.id))).map pyOfSql),
          rows.length - insertedCount rows ((existingKeysChunked (ensuredTable st now)
            (rows.map (fun r => r.id))).map pyOfSql),
          skipped, rows.length + skipped⟩,
        some t2)

/-- Shallow embedding of `insert_motos_from_json` (src/fun_db.py lines
63-214).  The result pairs what the call returns or raises with the
final state of the SQLite file. -/
def insert_motos_from_json (items : List Record) (marca modelo : String)
    (env : IndexEnv) (now : String) (st : DBState) :
    Except PyErr Summary × DBState :=
  if missing_cols items marca modelo ≠ [] then
    (.error (.valueError (missing_cols items marca modelo)), st)
  else if survivorsOf items marca modelo = [] then
    (.ok ⟨0, 0, skippedOf items marca modelo, skippedOf items marca modelo⟩, st)
  else
    runWithStorage (survivorsOf items marca modelo) (skippedOf items marca modelo)
      env now st

/-!  Concrete inputs and auxiliary predicates used by the claim
theorems, their witnesses and counterexamples.  -/

/-- A well-formed record: integer-looking id, url and title present. -/
def recW : Record :=
  [("id", PyVal.str "1"), ("url", PyVal.str "u"), ("title", PyVal.str "t"),
   ("km", PyVal.none), ("price", PyVal.none), ("year", PyVal.none),
   ("imgUrl", PyVal.none), ("provinceId", PyVal.none), ("hp", PyVal.none)]

/-- A record whose id coerces to null (empty string). -/
def recNoId : Record :=
  [("id", PyVal.str ""), ("url", PyVal.str "u"), ("title", PyVal.str "t"),
   ("km", PyVal.none), ("price", PyVal.none), ("year", PyVal.none),
   ("imgUrl", PyVal.none), ("provinceId", PyVal.none), ("hp", PyVal.none)]

/-- A record whose id survives normalization but is not an integer, so
the INTEGER PRIMARY KEY insert fails at write time. -/
def recBadId : Record :=
  [("id", PyVal.str "x"), ("url", PyVal.str "u"), ("title", PyVal.str "t"),
   ("km", PyVal.none), ("price", PyVal.none), ("year", PyVal.none),
   ("imgUrl", PyVal.none), ("provinceId", PyVal.none), ("hp", PyVal.none)]

/-- A record supplying only the id column, so the batch structurally
lacks the other required columns. -/
def recOnlyId : Record := [("id", PyVal.str "1")]

/-- A record with valid id/url/title and malformed values everywhere
else. -/
def recMal : Record :=
  [("id", PyVal.str "1"), ("url", PyVal.str "u"), ("title", PyVal.str "t"),
   ("km", PyVal.str "abc"), ("price", PyVal.str "3.5"), ("year", PyVal.nan),
   ("imgUrl", PyVal.none), ("provinceId", PyVal.none), ("hp", PyVal.str "x,y")]

/-- A normalized row with a null id, as recNoId produces. -/
def nBad : NRow :=
  { id := Option.none, url := some "u", title := some "t", km := Option.none,
    price := Option.none, year := Option.none, imgUrl := Option.none,
    provinceId := Option.none, hp := Option.none, marca := some "m",
    modelo := some "mo" }

/-- The final state after the first call of the C2 scenario. -/
def c2FirstState : DBState :=
  (insert_motos_from_json [recW] "m" "mo" envOk "T1" Option.none).2

/-- Environment in which the plain index on the price column fails. -/
def envPriceFails : IndexEnv :=
  ⟨fun n => if n = "idx_data_moto_price" then some SqlErr.operational
    else Option.none⟩

/-- Environment in which only the expression index over LOWER(title)
fails, with an OperationalError. -/
def envTitleFails : IndexEnv :=
  ⟨fun n => if n = "idx_data_moto_title_ci" then some SqlErr.operational
    else Option.none⟩

/-- A one-row table used by the C9 witness. -/
def tW : Table := ⟨ddl_cols, [[("id", SQLVal.int 1)]]⟩

/-- The timestamp invariant tracked through the write phase. -/
def Pok (row : SRow) : Prop :=
  getSCell row "created_at" ≠ SQLVal.null
    ∧ getSCell row "updated_at" ≠ SQLVal.null

/-- A pre-existing table created by an older version of the routine:
nine columns, no marca/modelo, no timestamps. -/
def tOld : Table :=
  ⟨["id", "url", "title", "km", "price", "year", "imgUrl", "provinceId", "hp"],
   [[("id", SQLVal.int 7), ("url", SQLVal.text "w"), ("title", SQLVal.text "s")]]⟩

/-- The pre-existing row of tOld after migration and backfill. -/
def rowMig : SRow :=
  [("id", SQLVal.int 7), ("url", SQLVal.text "w"), ("title", SQLVal.text "s"),
   ("created_at", SQLVal.text "T"), ("updated_at", SQLVal.text "T")]


/-!  Helper lemmas about the normalization phase.  -/

theorem collectRows_fst (ns : List NRow) :
    (collectRows ns).1 = ns.filter survive := by
  induction ns with
  | nil => rfl
  | cons n rest ih =>
    simp only [collectRows, List.filter_cons]
    by_cases h : survive n <;> simp [h, ih]

theorem collectRows_snd (ns : List NRow) :
    (collectRows ns).2 = ns.countP (fun n => !(survive n)) := by
  induction ns with
  | nil => rfl
  | cons n rest ih =>
    simp only [collectRows, List.countP_cons]
    by_cases h : survive n <;> simp [h, ih]

theorem collect_len (ns : List NRow) :
    (collectRows ns).1.length + (collectRows ns).2 = ns.length := by
  induction ns with
  | nil => rfl
  | cons n rest ih =>
    simp only [collectRows]
    by_cases h : survive n <;> simp [h] <;> omega

theorem normalizedRows_length (items : List Record) (marca modelo : String) :
    (normalizedRows items marca modelo).length = items.length := by
  simp [normalizedRows, stampedFrame, stamp]

theorem survivors_skipped_len (items : List Record) (marca modelo : String) :
    (survivorsOf items marca modelo).length + skippedOf items marca modelo
      = items.length := by
  have h := collect_len (normalizedRows items marca modelo)
  rw [normalizedRows_length] at h
  exact h

/-!  Claim theorems.  -/

/-- C1: whenever `insert_motos_from_json` completes without error, the
summary satisfies inserted + updated + skipped = total, total is the
input batch size, inserted counts surviving records whose identifier is
not in the pre-write existing-key set, updated is the surviving count
minus inserted, skipped is the number of records dropped during
normalization, and total is the surviving count plus skipped. -/
theorem claim_C1 (items : List Record) (marca modelo : String) (env : IndexEnv)
    (now : String) (st : DBState) (s : Summary) (st' : DBState)
    (h : insert_motos_from_json items marca modelo env now st = (.ok s, st')) :
    s.inserted + s.updated + s.skipped = s.total
    ∧ s.total = items.length
    ∧ s.inserted = insertedCount (survivorsOf items marca modelo)
        (preWriteExistingKeys items marca modelo now st)
    ∧ s.updated = (survivorsOf items marca modelo).length - s.inserted
    ∧ s.skipped = skippedOf items marca modelo
    ∧ s.total = (survivorsOf items marca modelo).length
        + skippedOf items marca modelo := by
  have hlen := survivors_skipped_len items marca modelo
  unfold insert_motos_from_json at h
  by_cases hm : missing_cols items marca modelo ≠ []
  · rw [if_pos hm] at h
    exact absurd (congrArg Prod.fst h) (by simp)
  · rw [if_neg hm] at h
    by_cases hsv : survivorsOf items marca modelo = []
    · rw [if_pos hsv] at h
      have hs : s = ⟨0, 0, skippedOf items marca modelo,
          skippedOf items marca modelo⟩ :=
        (Except.ok.inj (congrArg Prod.fst h)).symm
      subst hs
      refine ⟨by dsimp only; omega, ?_, ?_, ?_, rfl, ?_⟩
      · dsimp only
        rw [← hlen, hsv]
        simp
      · dsimp only
        simp [insertedCount, hsv]
      · dsimp only
        simp [hsv]
      · dsimp only
        rw [hsv]
        simp
    · rw [if_neg hsv] at h
      unfold runWithStorage at h
      split at h
      · exact absurd (congrArg Prod.fst h) (by simp)
      · split at h
        · exact absurd (congrArg Prod.fst h) (by simp)
        · have hs : s = ⟨insertedCount (survivorsOf items marca modelo)
              (preWriteExistingKeys items marca modelo now st),
              (survivorsOf items marca modelo).length
                - insertedCount (survivorsOf items marca modelo)
                    (preWriteExistingKeys items marca modelo now st),
              skippedOf items marca modelo,
              (survivorsOf items marca modelo).length
                + skippedOf items marca modelo⟩ :=
            (Except.ok.inj (congrArg Prod.fst h)).symm
          subst hs
          have hc : insertedCount (survivorsOf items marca modelo)
              (preWriteExistingKeys items marca modelo now st)
              ≤ (survivorsOf items marca modelo).length :=
            List.countP_le_length _
          exact ⟨by dsimp only; omega, hlen, rfl, rfl, rfl, rfl⟩

/-- Witness instance for C1: the one-record batch recW against an empty
store returns the summary 1/0/0/1, which satisfies every C1
equation. -/
theorem claim_C1_witness :
    (1 : Nat) + 0 + 0 = 1
    ∧ (1 : Nat) = ([recW] : List Record).length
    ∧ (1 : Nat) = insertedCount (survivorsOf [recW] "m" "mo")
        (preWriteExistingKeys [recW] "m" "mo" "T" Option.none)
    ∧ (0 : Nat) = (survivorsOf [recW] "m" "mo").length - 1
    ∧ (0 : Nat) = skippedOf [recW] "m" "mo"
    ∧ (1 : Nat) = (survivorsOf [recW] "m" "mo").length + skippedOf [recW] "m" "mo" :=
  claim_C1 [recW] "m" "mo" envOk "T" Option.none ⟨1, 0, 0, 1⟩
    (insert_motos_from_json [recW] "m" "mo" envOk "T" Option.none).2 rfl

/-- C3: a structurally missing required column makes the call raise the
ValueError naming the missing columns, before any storage access,
leaving the storage state unchanged. -/
theorem claim_C3 (items : List Record) (marca modelo : String) (env : IndexEnv)
    (now : String) (st : DBState)
    (h : missing_cols items marca modelo ≠ []) :
    insert_motos_from_json items marca modelo env now st =
      (.error (.valueError (missing_cols items marca modelo)), st) := by
  unfold insert_motos_from_json
  rw [if_pos h]

/-- Witness instance for C3: a batch carrying only the id column. -/
theorem claim_C3_witness :
    missing_cols [recOnlyId] "m" "mo" ≠ []
    ∧ insert_motos_from_json [recOnlyId] "m" "mo" envOk "T" Option.none =
        (.error (.valueError (missing_cols [recOnlyId] "m" "mo")), Option.none) :=
  ⟨by decide, claim_C3 [recOnlyId] "m" "mo" envOk "T" Option.none (by decide)⟩

/-- C5: a record whose id, url or title is null after normalization is
counted exactly once in skipped and excluded from the surviving rows,
which are the only rows the existing-key lookup and the write phase
receive. -/
theorem claim_C5 (items : List Record) (marca modelo : String) :
    survivorsOf items marca modelo =
      (normalizedRows items marca modelo).filter survive
    ∧ skippedOf items marca modelo =
        (normalizedRows items marca modelo).countP (fun n => !(survive n))
    ∧ (∀ n : NRow, survive n = false → n ∉ survivorsOf items marca modelo)
    ∧ (∀ (now : String) (st : DBState),
        preWriteExistingKeys items marca modelo now st =
          (existingKeysChunked (ensuredTable st now)
            ((survivorsOf items marca modelo).map (fun r => r.id))).map pyOfSql) := by
  refine ⟨collectRows_fst _, collectRows_snd _, ?_, fun _ _ => rfl⟩
  intro n hn hmem
  unfold survivorsOf at hmem
  rw [collectRows_fst] at hmem
  have := (List.mem_filter.mp hmem).2
  rw [hn] at this
  exact Bool.false_ne_true this

/-- Witness instance for C5: the null-id row is not among the
survivors. -/
theorem claim_C5_witness :
    survive nBad = false ∧ nBad ∉ survivorsOf [recNoId] "m" "mo" :=
  ⟨by decide, (claim_C5 [recNoId] "m" "mo").2.2.1 nBad (by decide)⟩

theorem normRecord_id (r : Record) :
    (normRecord r).id = to_str (replaceNan (getCell r "id")) := rfl

theorem normRecord_url (r : Record) :
    (normRecord r).url = to_str (replaceNan (getCell r "url")) := rfl

theorem normRecord_title (r : Record) :
    (normRecord r).title = to_str (replaceNan (getCell r "title")) := rfl

/-- C6: per-field coercion is total and never raises: strings are
trimmed with the empty string becoming null, na sentinels become null,
numeric strings that fail to parse become null, and a record whose id,
url and title coerce to non-empty strings survives normalization no
matter what the other fields hold. -/
theorem claim_C6 :
    (∀ s : String, to_str (PyVal.str s) =
      (if pyTrim s = "" then Option.none else some (pyTrim s)))
    ∧ (∀ v : PyVal, pdIsNa v = true →
        to_int v = Option.none ∧ to_float v = Option.none)
    ∧ (∀ s : String, parsePyInt s = Option.none →
        to_int (PyVal.str s) = Option.none)
    ∧ (∀ s : String, parsePyFloat s = Option.none →
        to_float (PyVal.str s) = Option.none)
    ∧ (∀ r : Record,
        truthyStr (to_str (replaceNan (getCell r "id"))) = true →
        truthyStr (to_str (replaceNan (getCell r "url"))) = true →
        truthyStr (to_str (replaceNan (getCell r "title"))) = true →
        survive (normRecord r) = true) := by
  refine ⟨fun s => rfl, ?_, ?_, ?_, ?_⟩
  · intro v hv
    cases v <;> simp_all [pdIsNa, to_int, to_float]
  · intro s hp
    by_cases h0 : s = ""
    · simp [to_int, h0]
    · by_cases h1 : s = "None"
      · simp [to_int, h1]
      · simp [to_int, h0, h1, pdIsNa, hp]
  · intro s hp
    by_cases h0 : s = ""
    · simp [to_float, h0]
    · by_cases h1 : s = "None"
      · simp [to_float, h1]
      · simp [to_float, h0, h1, pdIsNa, hp]
  · intro r h1 h2 h3
    simp only [survive, normRecord_id, normRecord_url, normRecord_title]
    rw [h1, h2, h3]
    rfl

/-- Witness instance for C6: an unparseable numeric string becomes
null, and the record recMal (malformed km, price, year, hp) still
survives. -/
theorem claim_C6_witness :
    parsePyInt "3.5" = Option.none
    ∧ to_int (PyVal.str "3.5") = Option.none
    ∧ truthyStr (to_str (replaceNan (getCell recMal "id"))) = true
    ∧ survive (normRecord recMal) = true :=
  ⟨by decide, claim_C6.2.2.1 "3.5" (by decide), by decide,
    claim_C6.2.2.2.2 recMal (by decide) (by decide) (by decide)⟩

/-- C2 is refuted by the code: calling the routine twice with the same
surviving one-record batch reports inserted = 1, updated = 0 both
times.  The table column id is INTEGER PRIMARY KEY, so the stored id is
the integer 1 and the SELECT returns it as a Python int, while the rows
hold the string-coerced id, and Python membership of a string in a set
of ints never holds; the second call therefore counts the row as
inserted even though its upsert takes the update branch.  The claim
expects the second call to report inserted = 0, updated = 1. -/
theorem claim_C2_bug :
    (insert_motos_from_json [recW] "m" "mo" envOk "T1" Option.none).1 =
      .ok ⟨1, 0, 0, 1⟩
    ∧ (insert_motos_from_json [recW] "m" "mo" envOk "T2" c2FirstState).1 =
      .ok ⟨1, 0, 0, 1⟩
    ∧ (insert_motos_from_json [recW] "m" "mo" envOk "T2" c2FirstState).1 ≠
      .ok ⟨0, 1, 0, 1⟩ := by
  refine ⟨rfl, rfl, ?_⟩
  intro h
  exact absurd (Except.ok.inj h) (by decide)

/-- C4: if the bulk write fails, the call propagates the error with no
summary, and the final table holds the pre-call rows under the migrated
columns: no surviving row is applied, partially or at all. -/
theorem claim_C4 (items : List Record) (marca modelo : String) (env : IndexEnv)
    (now : String) (st : DBState) (e : SqlErr)
    (hm : missing_cols items marca modelo = [])
    (hs : survivorsOf items marca modelo ≠ [])
    (hi : createIndexes env = .ok ())
    (hw : writePhase (containsStr (ensuredTable st now).cols "updated_at") now
        (ensuredTable st now) (survivorsOf items marca modelo) = .error e) :
    insert_motos_from_json items marca modelo env now st =
      (.error (.sqlErr e),
        some ⟨(ensuredTable st now).cols, (createIfNotExists st).rows⟩) := by
  unfold insert_motos_from_json
  rw [if_neg (by simp [hm]), if_neg hs]
  unfold runWithStorage
  simp only [hi, hw]

/-- Witness instance for C4: a surviving record with the non-integer id
x makes the INTEGER PRIMARY KEY insert fail; the call errors and the
absent table stays an empty migrated table with no row applied. -/
theorem claim_C4_witness :
    missing_cols [recBadId] "m" "mo" = []
    ∧ survivorsOf [recBadId] "m" "mo" ≠ []
    ∧ createIndexes envOk = .ok ()
    ∧ writePhase (containsStr (ensuredTable Option.none "T").cols "updated_at") "T"
        (ensuredTable Option.none "T") (survivorsOf [recBadId] "m" "mo") =
        .error SqlErr.integrity
    ∧ insert_motos_from_json [recBadId] "m" "mo" envOk "T" Option.none =
        (.error (.sqlErr SqlErr.integrity),
          some ⟨(ensuredTable Option.none "T").cols,
            (createIfNotExists Option.none).rows⟩) :=
  ⟨by decide, by decide, rfl, rfl,
    claim_C4 [recBadId] "m" "mo" envOk "T" Option.none SqlErr.integrity
      (by decide) (by decide) rfl rfl⟩

/-- Counterexample to C8 as stated: a failure creating the plain price
index propagates out of the call, because the four plain CREATE INDEX
statements are not wrapped in any try/except. -/
theorem claim_C8_counterexample :
    (insert_motos_from_json [recW] "m" "mo" envPriceFails "T" Option.none).1 =
      .error (.sqlErr SqlErr.operational) := rfl

/-- C8 (amended): only the expression-index creation failure, and only
as an OperationalError, is caught and ignored; provided the four plain
index creations succeed, the call behaves exactly as if no index
failure happened at all. -/
theorem claim_C8 (env : IndexEnv)
    (h1 : env.fails "idx_data_moto_price" = Option.none)
    (h2 : env.fails "idx_data_moto_year" = Option.none)
    (h3 : env.fails "idx_data_moto_km" = Option.none)
    (h4 : env.fails "idx_data_moto_prov" = Option.none)
    (h5 : env.fails "idx_data_moto_title_ci" = Option.none ∨
      env.fails "idx_data_moto_title_ci" = some SqlErr.operational) :
    createIndexes env = .ok ()
    ∧ ∀ (items : List Record) (marca modelo now : String) (st : DBState),
        insert_motos_from_json items marca modelo env now st =
          insert_motos_from_json items marca modelo envOk now st := by
  have hok : createIndexes env = .ok () := by
    unfold createIndexes
    rw [h1, h2, h3, h4]
    rcases h5 with h | h <;> rw [h]
  refine ⟨hok, ?_⟩
  intro items marca modelo now st
  unfold insert_motos_from_json
  by_cases hm : missing_cols items marca modelo ≠ []
  · rw [if_pos hm, if_pos hm]
  · rw [if_neg hm, if_neg hm]
    by_cases hsv : survivorsOf items marca modelo = []
    · rw [if_pos hsv, if_pos hsv]
    · rw [if_neg hsv, if_neg hsv]
      unfold runWithStorage
      rw [hok]
      rfl

/-- Witness instance for the amended C8: the environment where only the
expression index fails operationally is tolerated and the call result
is unchanged. -/
theorem claim_C8_witness :
    envTitleFails.fails "idx_data_moto_title_ci" = some SqlErr.operational
    ∧ createIndexes envTitleFails = .ok ()
    ∧ insert_motos_from_json [recW] "m" "mo" envTitleFails "T" Option.none =
        insert_motos_from_json [recW] "m" "mo" envOk "T" Option.none :=
  ⟨rfl,
    (claim_C8 envTitleFails rfl rfl rfl rfl (Or.inr rfl)).1,
    (claim_C8 envTitleFails rfl rfl rfl rfl (Or.inr rfl)).2 [recW] "m" "mo" "T"
      Option.none⟩

theorem length_chunks900Fuel {α : Type} :
    ∀ (fuel : Nat) (l c : List α), c ∈ chunks900Fuel fuel l → c.length ≤ 900 := by
  intro fuel
  induction fuel with
  | zero =>
    intro l c hc
    cases l <;> simp [chunks900Fuel] at hc
  | succ f ih =>
    intro l c hc
    cases l with
    | nil => simp [chunks900Fuel] at hc
    | cons a as =>
      simp only [chunks900Fuel] at hc
      rcases List.mem_cons.mp hc with h | h
      · subst h
        simp [List.length_take]
      · exact ih _ c h

theorem any_chunks900Fuel {α : Type} (p : α → Bool) :
    ∀ (fuel : Nat) (l : List α), l.length ≤ fuel →
      ((chunks900Fuel fuel l).any (fun c => c.any p)) = l.any p := by
  intro fuel
  induction fuel with
  | zero =>
    intro l hl
    have hnil : l = [] := List.eq_nil_of_length_eq_zero (Nat.le_zero.mp hl)
    subst hnil
    rfl
  | succ f ih =>
    intro l hl
    cases l with
    | nil => rfl
    | cons a as =>
      simp only [chunks900Fuel, List.any_cons]
      rw [ih ((a :: as).drop 900) (by simp [List.length_drop] at *; omega)]
      rw [← List.any_append, List.take_append_drop, List.any_cons]

theorem mem_concatAll {α : Type} (v : α) :
    ∀ L : List (List α), v ∈ concatAll L ↔ ∃ l, l ∈ L ∧ v ∈ l := by
  intro L
  induction L with
  | nil => simp [concatAll]
  | cons x xs ih =>
    simp only [concatAll, List.mem_append, ih, List.mem_cons]
    constructor
    · rintro (h | ⟨l, hl, hv⟩)
      · exact ⟨x, Or.inl rfl, h⟩
      · exact ⟨l, Or.inr hl, hv⟩
    · rintro ⟨l, h | hl, hv⟩
      · subst h; exact Or.inl hv
      · exact Or.inr ⟨l, hl, hv⟩

theorem mem_selectIdsIn (t : Table) (ids : List (Option String)) (v : SQLVal) :
    v ∈ selectIdsIn t ids ↔
      v ∈ t.rows.map (fun row => getSCell row "id")
        ∧ ids.any (fun p => sqlCmpEq v (sqlOfStr p)) = true := by
  simp [selectIdsIn, List.mem_filter]

/-- C9: the existing-key lookup queries the identifiers in chunks of at
most 900 per lookup, and the union of the chunked lookup results has
exactly the membership of the single unchunked lookup over all
surviving identifiers, whatever the length of the identifier list. -/
theorem claim_C9 (t : Table) (ids : List (Option String)) :
    (∀ c ∈ chunks900 ids, c.length ≤ 900)
    ∧ ∀ v : SQLVal, v ∈ existingKeysChunked t ids ↔ v ∈ selectIdsIn t ids := by
  constructor
  · intro c hc
    exact length_chunks900Fuel ids.length ids c hc
  · intro v
    rw [mem_selectIdsIn]
    unfold existingKeysChunked
    rw [mem_concatAll]
    constructor
    · rintro ⟨l, hl, hv⟩
      rcases List.mem_map.mp hl with ⟨c, hc, rfl⟩
      rcases (mem_selectIdsIn t c v).mp hv with ⟨hst, hany⟩
      refine ⟨hst, ?_⟩
      rw [← any_chunks900Fuel (fun p => sqlCmpEq v (sqlOfStr p)) ids.length ids
        (le_refl _)]
      exact List.any_eq_true.mpr ⟨c, hc, hany⟩
    · rintro ⟨hst, hany⟩
      rw [← any_chunks900Fuel (fun p => sqlCmpEq v (sqlOfStr p)) ids.length ids
        (le_refl _)] at hany
      rcases List.any_eq_true.mp hany with ⟨c, hc, hcany⟩
      exact ⟨selectIdsIn t c, List.mem_map_of_mem _ hc,
        (mem_selectIdsIn t c v).mpr ⟨hst, hcany⟩⟩

/-- Witness instance for C9 at a concrete table and identifier list. -/
theorem claim_C9_witness :
    ([some "1"] : List (Option String)) ∈ chunks900 [some "1"]
    ∧ ([some "1"] : List (Option String)).length ≤ 900
    ∧ (SQLVal.int 1 ∈ existingKeysChunked tW [some "1"] ↔
        SQLVal.int 1 ∈ selectIdsIn tW [some "1"]) :=
  ⟨by decide, (claim_C9 tW [some "1"]).1 [some "1"] (by decide),
    (claim_C9 tW [some "1"]).2 (SQLVal.int 1)⟩

theorem getSCell_nil (c : String) : getSCell [] c = SQLVal.null := rfl

theorem getSCell_cons (p : String × SQLVal) (ps : SRow) (c : String) :
    getSCell (p :: ps) c = if c = p.1 then p.2 else getSCell ps c := by
  rcases p with ⟨k, v⟩
  by_cases h : c = k
  · simp only [getSCell, List.lookup, h]
    simp
  · simp only [getSCell, List.lookup]
    rw [beq_eq_false_iff_ne.mpr h]
    simp [h]

theorem setSCell_cons_hit (p : String × SQLVal) (ps : SRow) (c : String)
    (v : SQLVal) (hp : p.1 = c) : setSCell (p :: ps) c v = (c, v) :: ps := by
  simp [setSCell, hp]

theorem setSCell_cons_miss (p : String × SQLVal) (ps : SRow) (c : String)
    (v : SQLVal) (hp : ¬(p.1 = c)) :
    setSCell (p :: ps) c v = p :: setSCell ps c v := by
  simp [setSCell, hp]

theorem getSCell_setSCell_same (row : SRow) (c : String) (v : SQLVal) :
    getSCell (setSCell row c v) c = v := by
  induction row with
  | nil =>
    show getSCell [(c, v)] c = v
    rw [getSCell_cons]
    simp
  | cons p ps ih =>
    by_cases hp : p.1 = c
    · rw [setSCell_cons_hit p ps c v hp, getSCell_cons]
      simp
    · rw [setSCell_cons_miss p ps c v hp, getSCell_cons,
        if_neg (fun h => hp h.symm)]
      exact ih

theorem getSCell_setSCell_ne (row : SRow) (c c2 : String) (v : SQLVal)
    (h : c2 ≠ c) : getSCell (setSCell row c v) c2 = getSCell row c2 := by
  induction row with
  | nil =>
    show getSCell [(c, v)] c2 = getSCell [] c2
    rw [getSCell_cons, if_neg h]
  | cons p ps ih =>
    by_cases hp : p.1 = c
    · rw [setSCell_cons_hit p ps c v hp, getSCell_cons, getSCell_cons]
      have h2 : ¬(c2 = p.1) := by rw [hp]; exact h
      rw [if_neg h, if_neg h2]
    · rw [setSCell_cons_miss p ps c v hp, getSCell_cons, getSCell_cons, ih]

theorem getSCell_setAll_not_key (c2 : String) :
    ∀ (assigns : List (String × SQLVal)) (row : SRow),
      (∀ p ∈ assigns, p.1 ≠ c2) →
      getSCell (setAll row assigns) c2 = getSCell row c2 := by
  intro assigns
  induction assigns with
  | nil => intro row _; rfl
  | cons p ps ih =>
    intro row h
    show getSCell (setAll (setSCell row p.1 p.2) ps) c2 = _
    rw [ih _ (fun q hq => h q (List.mem_cons_of_mem _ hq))]
    exact getSCell_setSCell_ne _ _ _ _ (Ne.symm (h p (List.mem_cons_self _ _)))

theorem nonKeyAssignments_keys (hU : Bool) (now : String) (r : NRow) :
    (nonKeyAssignments hU now r).map Prod.fst =
      ["url", "title", "km", "price", "year", "imgUrl", "provinceId", "hp",
       "marca", "modelo"] ++ (if hU then ["updated_at"] else []) := by
  cases hU <;> simp [nonKeyAssignments]

theorem update_created (hU : Bool) (now : String) (r : NRow) (row : SRow) :
    getSCell (updateFromExcluded hU now r row) "created_at" =
      getSCell row "created_at" := by
  apply getSCell_setAll_not_key
  intro p hp
  have hkeys : p.1 ∈ (nonKeyAssignments hU now r).map Prod.fst :=
    List.mem_map_of_mem _ hp
  rw [nonKeyAssignments_keys] at hkeys
  intro hcontra
  rw [hcontra] at hkeys
  cases hU <;> exact absurd hkeys (by decide)

theorem update_updated_true (now : String) (r : NRow) (row : SRow) :
    getSCell (updateFromExcluded true now r row) "updated_at" =
      SQLVal.text now := by
  show getSCell (setAll row (nonKeyAssignments true now r)) "updated_at" = _
  rw [show nonKeyAssignments true now r =
    [("url", sqlOfStr r.url), ("title", sqlOfStr r.title), ("km", sqlOfInt r.km),
     ("price", sqlOfInt r.price), ("year", sqlOfInt r.year),
     ("imgUrl", sqlOfStr r.imgUrl), ("provinceId", sqlOfStr r.provinceId),
     ("hp", sqlOfRat r.hp), ("marca", sqlOfStr r.marca),
     ("modelo", sqlOfStr r.modelo)] ++ [("updated_at", SQLVal.text now)] from rfl]
  rw [setAll, List.foldl_append]
  exact getSCell_setSCell_same _ _ _

theorem update_updated_false (now : String) (r : NRow) (row : SRow) :
    getSCell (updateFromExcluded false now r row) "updated_at" =
      getSCell row "updated_at" := by
  apply getSCell_setAll_not_key
  intro p hp
  have hkeys : p.1 ∈ (nonKeyAssignments false now r).map Prod.fst :=
    List.mem_map_of_mem _ hp
  rw [nonKeyAssignments_keys] at hkeys
  intro hcontra
  rw [hcontra] at hkeys
  exact absurd hkeys (by decide)

theorem update_pok (hU : Bool) (now : String) (r : NRow) (row : SRow)
    (h : Pok row) : Pok (updateFromExcluded hU now r row) := by
  constructor
  · rw [update_created]; exact h.1
  · cases hU
    · rw [update_updated_false]; exact h.2
    · rw [update_updated_true]; simp

theorem upsert_take_pok (hU : Bool) (now : String) (k : Nat) (t t1 : Table)
    (r : NRow) (hu : upsertRow hU now t r = .ok t1)
    (hk : k ≤ t.rows.length) (hp : ∀ row ∈ t.rows.take k, Pok row) :
    k ≤ t1.rows.length ∧ ∀ row ∈ t1.rows.take k, Pok row := by
  unfold upsertRow at hu
  split at hu
  · exact absurd hu (by simp)
  · rename_i idv heq
    split at hu
    · exact absurd hu (by simp)
    · split at hu
      · split at hu
        · exact absurd hu (by simp)
        · have ht1 : t1 = ⟨t.cols, t.rows.map (fun row =>
              if sqlCmpEq (getSCell row "id") idv then
                updateFromExcluded hU now r row
              else row)⟩ := (Except.ok.inj hu).symm
          subst ht1
          refine ⟨by simpa using hk, ?_⟩
          intro row hrow
          rw [← List.map_take] at hrow
          rcases List.mem_map.mp hrow with ⟨y, hy, rfl⟩
          by_cases hid : sqlCmpEq (getSCell y "id") idv = true
          · rw [if_pos hid]
            exact update_pok hU now r y (hp y hy)
          · rw [if_neg hid]
            exact hp y hy
      · split at hu
        · exact absurd hu (by simp)
        · have ht1 : t1 = ⟨t.cols, t.rows ++ [baseRow idv r]⟩ :=
            (Except.ok.inj hu).symm
          subst ht1
          refine ⟨by simp [List.length_append]; omega, ?_⟩
          intro row hrow
          rw [List.take_append_of_le_length hk] at hrow
          exact hp row hrow

theorem writePhase_take_pok (hU : Bool) (now : String) (k : Nat) :
    ∀ (rs : List NRow) (t t2 : Table), writePhase hU now t rs = .ok t2 →
      k ≤ t.rows.length → (∀ row ∈ t.rows.take k, Pok row) →
      k ≤ t2.rows.length ∧ ∀ row ∈ t2.rows.take k, Pok row := by
  intro rs
  induction rs with
  | nil =>
    intro t t2 hw hk hp
    have ht : t = t2 := Except.ok.inj hw
    subst ht
    exact ⟨hk, hp⟩
  | cons r rest ih =>
    intro t t2 hw hk hp
    unfold writePhase at hw
    cases hu : upsertRow hU now t r with
    | error e => rw [hu] at hw; exact absurd hw (by simp)
    | ok t1 =>
      rw [hu] at hw
      have hstep := upsert_take_pok hU now k t t1 r hu hk hp
      exact ih t1 t2 hw hstep.1 hstep.2

theorem containsStr_append (l1 l2 : List String) (c : String) :
    containsStr (l1 ++ l2) c = (containsStr l1 c || containsStr l2 c) := by
  simp [containsStr, List.any_append]

theorem wmm_eq (cols : List String) :
    withMarcaModelo cols = cols ++
      (["marca", "modelo"].filter (fun c => !(containsStr cols c))) := by
  unfold withMarcaModelo
  have hmm : containsStr (cols ++ ["marca"]) "modelo" =
      containsStr cols "modelo" := by
    rw [containsStr_append]
    simp [show containsStr ["marca"] "modelo" = false from rfl]
  cases h1 : containsStr cols "marca" <;> cases h2 : containsStr cols "modelo" <;>
    simp [h1, h2, hmm, List.filter_cons, List.append_assoc]

theorem wmm_contains_created (cols : List String) :
    containsStr (withMarcaModelo cols) "created_at" =
      containsStr cols "created_at" := by
  rw [wmm_eq, containsStr_append]
  cases h1 : containsStr cols "marca" <;> cases h2 : containsStr cols "modelo" <;>
    simp [List.filter_cons, h1, h2,
      show containsStr ["marca", "modelo"] "created_at" = false from rfl,
      show containsStr ["marca"] "created_at" = false from rfl,
      show containsStr ["modelo"] "created_at" = false from rfl,
      show containsStr ([] : List String) "created_at" = false from rfl]

theorem wmm_contains_updated (cols : List String) :
    containsStr (withMarcaModelo cols) "updated_at" =
      containsStr cols "updated_at" := by
  rw [wmm_eq, containsStr_append]
  cases h1 : containsStr cols "marca" <;> cases h2 : containsStr cols "modelo" <;>
    simp [List.filter_cons, h1, h2,
      show containsStr ["marca", "modelo"] "updated_at" = false from rfl,
      show containsStr ["marca"] "updated_at" = false from rfl,
      show containsStr ["modelo"] "updated_at" = false from rfl,
      show containsStr ([] : List String) "updated_at" = false from rfl]

theorem ats_wmm (cols : List String) :
    addedTimestampCols (withMarcaModelo cols) = addedTimestampCols cols := by
  unfold addedTimestampCols
  simp only [List.filter_cons, List.filter_nil, wmm_contains_created,
    wmm_contains_updated]

/-- C7 conjunct A: the migrated column list appends exactly the missing
ones of marca, modelo, created_at, updated_at, in that order, dropping
nothing. -/
theorem ensureSchema_cols (t : Table) (now : String) :
    (ensureSchema t now).cols = t.cols ++
      (["marca", "modelo", "created_at", "updated_at"].filter
        (fun c => !(containsStr t.cols c))) := by
  show withMarcaModelo t.cols ++ addedTimestampCols (withMarcaModelo t.cols) = _
  rw [ats_wmm, wmm_eq]
  unfold addedTimestampCols
  cases h1 : containsStr t.cols "marca" <;>
    cases h2 : containsStr t.cols "modelo" <;>
    cases h3 : containsStr t.cols "created_at" <;>
    cases h4 : containsStr t.cols "updated_at" <;>
    simp [List.filter_cons, h1, h2, h3, h4, List.append_assoc]

theorem backfillCreated_length (cols : List String) (now : String)
    (rows : List SRow) :
    (backfillCreated cols now rows).length = rows.length := by
  unfold backfillCreated
  by_cases hc : containsStr (addedTimestampCols cols) "created_at" = true <;>
    simp [hc]

theorem backfillRows_length (cols : List String) (now : String)
    (rows : List SRow) : (backfillRows cols now rows).length = rows.length := by
  unfold backfillRows
  by_cases he : (addedTimestampCols cols).isEmpty = true <;>
    by_cases hu : containsStr (addedTimestampCols cols) "updated_at" = true <;>
    simp [he, hu, backfillCreated_length]

theorem coalesce_same_nonnull (row : SRow) (c now : String) :
    getSCell (coalesceCell row c now) c ≠ SQLVal.null := by
  unfold coalesceCell
  cases h : getSCell row c with
  | null =>
    rw [getSCell_setSCell_same]
    simp
  | int n => rw [h]; simp
  | real q => rw [h]; simp
  | text s => rw [h]; simp

theorem coalesce_ne (row : SRow) (c c2 now : String) (hne : c2 ≠ c) :
    getSCell (coalesceCell row c now) c2 = getSCell row c2 := by
  unfold coalesceCell
  cases h : getSCell row c <;>
    simp [getSCell_setSCell_ne _ _ _ _ hne]

theorem backfill_created_nonnull (cols : List String) (now : String)
    (rows : List SRow) (h : containsStr cols "created_at" = false) :
    ∀ row ∈ backfillRows cols now rows,
      getSCell row "created_at" ≠ SQLVal.null := by
  have hadd : containsStr (addedTimestampCols cols) "created_at" = true := by
    simp only [addedTimestampCols, List.filter_cons, List.filter_nil, h,
      Bool.not_false, if_true]
    simp [containsStr]
  have hne : ¬((addedTimestampCols cols).isEmpty = true) := by
    cases hcc : addedTimestampCols cols with
    | nil => rw [hcc] at hadd; exact absurd hadd (by decide)
    | cons x xs => simp
  intro row hr
  unfold backfillRows at hr
  rw [if_neg hne] at hr
  by_cases hu : containsStr (addedTimestampCols cols) "updated_at" = true
  · rw [if_pos hu] at hr
    rcases List.mem_map.mp hr with ⟨r1, hr1, rfl⟩
    rw [coalesce_ne _ _ _ _ (by decide)]
    unfold backfillCreated at hr1
    rw [if_pos hadd] at hr1
    rcases List.mem_map.mp hr1 with ⟨r0, _, rfl⟩
    exact coalesce_same_nonnull r0 "created_at" now
  · rw [if_neg hu] at hr
    unfold backfillCreated at hr
    rw [if_pos hadd] at hr
    rcases List.mem_map.mp hr with ⟨r0, _, rfl⟩
    exact coalesce_same_nonnull r0 "created_at" now

theorem backfill_updated_nonnull (cols : List String) (now : String)
    (rows : List SRow) (h : containsStr cols "updated_at" = false) :
    ∀ row ∈ backfillRows cols now rows,
      getSCell row "updated_at" ≠ SQLVal.null := by
  have hadd : containsStr (addedTimestampCols cols) "updated_at" = true := by
    by_cases hc : containsStr cols "created_at" = true
    · simp only [addedTimestampCols, List.filter_cons, List.filter_nil, h, hc]
      simp [containsStr]
    · have hcf := Bool.eq_false_iff.mpr hc
      simp only [addedTimestampCols, List.filter_cons, List.filter_nil, h, hcf]
      simp [containsStr]
  have hne : ¬((addedTimestampCols cols).isEmpty = true) := by
    cases hcc : addedTimestampCols cols with
    | nil => rw [hcc] at hadd; exact absurd hadd (by decide)
    | cons x xs => simp
  intro row hr
  unfold backfillRows at hr
  rw [if_neg hne, if_pos hadd] at hr
  rcases List.mem_map.mp hr with ⟨r1, _, rfl⟩
  exact coalesce_same_nonnull r1 "updated_at" now

/-- C7: running the reconciler against a pre-existing table that lacks
the grouping-label columns or the timestamp columns never errors in the
schema-ensure phase (modelled as a total function), adds each missing
column additively at the end of the column list with nothing dropped or
renamed, leaves every pre-existing row with a non-null value in each
newly added and backfilled timestamp column, and a subsequent
successful write phase keeps those timestamps non-null on all
pre-existing rows. -/
theorem claim_C7 (t : Table) (now : String) :
    (ensureSchema t now).cols = t.cols ++
      (["marca", "modelo", "created_at", "updated_at"].filter
        (fun c => !(containsStr t.cols c)))
    ∧ (ensureSchema t now).rows.length = t.rows.length
    ∧ (containsStr t.cols "created_at" = false →
        ∀ row ∈ (ensureSchema t now).rows,
          getSCell row "created_at" ≠ SQLVal.null)
    ∧ (containsStr t.cols "updated_at" = false →
        ∀ row ∈ (ensureSchema t now).rows,
          getSCell row "updated_at" ≠ SQLVal.null)
    ∧ (∀ (hU : Bool) (rs : List NRow) (t2 : Table),
        containsStr t.cols "created_at" = false →
        containsStr t.cols "updated_at" = false →
        writePhase hU now (ensureSchema t now) rs = .ok t2 →
        ∀ row ∈ t2.rows.take t.rows.length,
          getSCell row "created_at" ≠ SQLVal.null
            ∧ getSCell row "updated_at" ≠ SQLVal.null) := by
  have hrowsdef : (ensureSchema t now).rows =
      backfillRows (withMarcaModelo t.cols) now t.rows := rfl
  have hlen : (ensureSchema t now).rows.length = t.rows.length := by
    rw [hrowsdef]
    exact backfillRows_length _ _ _
  refine ⟨ensureSchema_cols t now, hlen, ?_, ?_, ?_⟩
  · intro h row hrow
    rw [hrowsdef] at hrow
    exact backfill_created_nonnull _ now t.rows
      (by rw [wmm_contains_created]; exact h) row hrow
  · intro h row hrow
    rw [hrowsdef] at hrow
    exact backfill_updated_nonnull _ now t.rows
      (by rw [wmm_contains_updated]; exact h) row hrow
  · intro hU rs t2 hc hu2 hw row hrow
    have hstart : ∀ row2 ∈ (ensureSchema t now).rows.take t.rows.length,
        Pok row2 := by
      intro row2 hr2
      have hr2' : row2 ∈ (ensureSchema t now).rows := List.mem_of_mem_take hr2
      rw [hrowsdef] at hr2'
      exact ⟨backfill_created_nonnull _ now t.rows
          (by rw [wmm_contains_created]; exact hc) row2 hr2',
        backfill_updated_nonnull _ now t.rows
          (by rw [wmm_contains_updated]; exact hu2) row2 hr2'⟩
    have hk : t.rows.length ≤ (ensureSchema t now).rows.length := by
      rw [hlen]
    exact (writePhase_take_pok hU now t.rows.length rs (ensureSchema t now) t2
      hw hk hstart).2 row hrow

/-- Witness instance for C7: migrating tOld backfills its row with
non-null timestamps. -/
theorem claim_C7_witness :
    containsStr tOld.cols "created_at" = false
    ∧ rowMig ∈ (ensureSchema tOld "T").rows
    ∧ getSCell rowMig "created_at" ≠ SQLVal.null :=
  ⟨by decide, by decide, (claim_C7 tOld "T").2.2.1 (by decide) rowMig (by decide)⟩

/-- C10: when every record of a non-empty batch is dropped by
normalization, the call returns 0/0/n/n with n the batch size and the
storage state is left exactly as it was: no table creation, no
migration, no index creation, no write. -/
theorem claim_C10 (items : List Record) (marca modelo : String) (env : IndexEnv)
    (now : String) (st : DBState)
    (hm : missing_cols items marca modelo = [])
    (_hne : items ≠ [])
    (hs : survivorsOf items marca modelo = []) :
    insert_motos_from_json items marca modelo env now st =
      (.ok ⟨0, 0, items.length, items.length⟩, st) := by
  have hk : skippedOf items marca modelo = items.length := by
    have h := survivors_skipped_len items marca modelo
    rw [hs] at h
    simpa using h
  unfold insert_motos_from_json
  rw [if_neg (by simp [hm]), if_pos hs, hk]

/-- Witness instance for C10: the single-record batch whose id is empty
is skipped entirely and the absent storage file stays absent. -/
theorem claim_C10_witness :
    missing_cols [recNoId] "m" "mo" = []
    ∧ ([recNoId] : List Record) ≠ []
    ∧ survivorsOf [recNoId] "m" "mo" = []
    ∧ insert_motos_from_json [recNoId] "m" "mo" envOk "T" Option.none =
        (.ok ⟨0, 0, 1, 1⟩, Option.none) :=
  ⟨by decide, by decide, by decide,
    claim_C10 [recNoId] "m" "mo" envOk "T" Option.none (by decide) (by decide)
      (by decide)⟩

end Moto
